import Mathlib

/-!
Shallow embedding of the IOU application's core ledger logic, translated
from the repository's Python sources:

* `iou_app/iou/utils.py`   — `compute_iou_status` (current, schema-based)
* `app/iou/utils.py`       — `compute_iou_status` (legacy, tuple-based)
* `iou_app/iou/schema.py`  — `validate_amount_str`, `EntrySchema` validators,
                             `IOUMessage.parse_amount`, `SplitSchema`
* `iou_app/iou/views.py` and `app/iou/views.py` — `split_amount`
* `app/iou/views.py`       — `settle_transactions`, `read_iou_status`
* `iou_app/iou/ddb.py`     — `get_entries`, `soft_delete_item`

Python `float` amounts are modelled as rationals (`ℚ`); all arithmetic the
verified claims depend on (sums, comparisons, subtraction, decimal rounding)
is exact in this model.  Fallible Python code (raised exceptions) is modelled
with `Except`.
-/

/-- One directional debt record, from `EntrySchema` in `iou_app/iou/schema.py`
(`conversation_id`, `sender`, `recipient`, `amount`, optional `description`,
`deleted` flag; the system-assigned timestamp is irrelevant to the verified
logic and omitted). -/
structure EntrySchema where
  conversation_id : String
  sender : String
  recipient : String
  amount : ℚ
  description : Option String := none
  deleted : Bool := false
deriving DecidableEq, Repr

/-- Result dictionary of `compute_iou_status`: keys `user1`, `user2`,
`amount`, read as "`user1` owes `user2` the `amount`". -/
structure IouStatus where
  user1 : String
  user2 : String
  amount : ℚ
deriving DecidableEq, Repr

/-- Sum of the `amount` fields of a list of entries
(`sum([entry.amount for entry in q])`). -/
def sumAmounts (q : List EntrySchema) : ℚ :=
  (q.map (fun e => e.amount)).sum

/-- Current balance engine, from `compute_iou_status` in
`iou_app/iou/utils.py`.  `query1` lists entries where user1 is the sender,
`query2` those where user2 is the sender.  Both lists empty raises
`ValueError` (modelled with `Except.error`).  User names are taken from the
first element of `query1`, or reversed from `query2` when `query1` is empty;
in the `user2_sum > user1_sum` branch the owing/owed pair is re-read from
`query2[0]` when `query2` is non-empty.  The source's final `else: raise`
branch is unreachable under the total order on the sums and has no image
here. -/
def compute_iou_status (query1 query2 : List EntrySchema) : Except String IouStatus :=
  let user1_sum := sumAmounts query1
  let user2_sum := sumAmounts query2
  match query1, query2 with
  | [], [] => Except.error "IOU status not found with query1=[] and query2=[]"
  | e1 :: _, q2 =>
    let user1_name := e1.sender
    let user2_name := e1.recipient
    if user1_sum > user2_sum then
      Except.ok ⟨user1_name, user2_name, user1_sum - user2_sum⟩
    else if user2_sum > user1_sum then
      let owing_user := match q2 with | e :: _ => e.sender | [] => user2_name
      let owed_user := match q2 with | e :: _ => e.recipient | [] => user1_name
      Except.ok ⟨owing_user, owed_user, user2_sum - user1_sum⟩
    else
      Except.ok ⟨user1_name, user2_name, 0⟩
  | [], e2 :: _ =>
    let user1_name := e2.recipient
    let user2_name := e2.sender
    if user1_sum > user2_sum then
      Except.ok ⟨user1_name, user2_name, user1_sum - user2_sum⟩
    else if user2_sum > user1_sum then
      Except.ok ⟨e2.sender, e2.recipient, user2_sum - user1_sum⟩
    else
      Except.ok ⟨user1_name, user2_name, 0⟩

/-- Row shape seen by the legacy engine: a `(sender, recipient, amount)`
tuple as produced by `query_for_user` in `app/iou/utils.py`. -/
abbrev EntryTuple := String × String × ℚ

/-- Sum of the amount components of a list of legacy tuples
(`sum([entry[2] for entry in q])`). -/
def sumTuples (q : List EntryTuple) : ℚ :=
  (q.map (fun t => t.2.2)).sum

/-- Legacy balance engine, from `compute_iou_status` in `app/iou/utils.py`.
It indexes `query1[0]` / `query2[0]` without an emptiness guard; indexing an
empty list raises `IndexError`, modelled with `Except.error`. -/
def compute_iou_status_legacy (query1 query2 : List EntryTuple) :
    Except String IouStatus :=
  let user1_sum := sumTuples query1
  let user2_sum := sumTuples query2
  if user1_sum > user2_sum then
    match query1 with
    | [] => Except.error "IndexError"
    | t :: _ => Except.ok ⟨t.1, t.2.1, user1_sum - user2_sum⟩
  else if user2_sum > user1_sum then
    match query2 with
    | [] => Except.error "IndexError"
    | t :: _ => Except.ok ⟨t.1, t.2.1, user2_sum - user1_sum⟩
  else
    match query1 with
    | [] => Except.error "IndexError"
    | t :: _ => Except.ok ⟨t.1, t.2.1, 0⟩

/-- Projection of a schema entry to the legacy tuple shape. -/
def entryToTuple (e : EntrySchema) : EntryTuple :=
  (e.sender, e.recipient, e.amount)

/-- C1: with both entry lists empty, `compute_iou_status` fails with the
"not found" `ValueError`; in particular it does not return a zero (or any)
balance. -/
theorem c1_empty_queries_error :
    compute_iou_status [] [] =
      Except.error "IOU status not found with query1=[] and query2=[]" := by
  rfl

/-- The sum of a list of positive amounts is nonnegative. -/
theorem sumAmounts_nonneg {q : List EntrySchema} (h : ∀ e ∈ q, 0 < e.amount) :
    0 ≤ sumAmounts q := by
  apply List.sum_nonneg
  intro x hx
  rcases List.mem_map.mp hx with ⟨e, he, rfl⟩
  exact (h e he).le

/-- The sum of a non-empty list of positive amounts is positive. -/
theorem sumAmounts_pos {q : List EntrySchema} (h : ∀ e ∈ q, 0 < e.amount)
    (hq : q ≠ []) : 0 < sumAmounts q := by
  apply List.sum_pos
  · intro x hx
    rcases List.mem_map.mp hx with ⟨e, he, rfl⟩
    exact h e he
  · simpa using hq

/-- A list of positive amounts with a sum that is at most the sum of the
empty side is itself empty. -/
theorem eq_nil_of_sumAmounts_nonpos {q : List EntrySchema}
    (h : ∀ e ∈ q, 0 < e.amount) (hle : sumAmounts q ≤ 0) : q = [] := by
  by_contra hq
  exact absurd hle (not_le.mpr (sumAmounts_pos h hq))

/-- When the first list's sum dominates, the engine reports the first list's
direction with the difference of the sums. -/
theorem compute_iou_status_gt (a b : String) (q1 q2 : List EntrySchema)
    (h1 : ∀ e ∈ q1, e.sender = a ∧ e.recipient = b)
    (hpos2 : ∀ e ∈ q2, 0 < e.amount)
    (hlt : sumAmounts q2 < sumAmounts q1) :
    compute_iou_status q1 q2 =
      Except.ok ⟨a, b, sumAmounts q1 - sumAmounts q2⟩ := by
  rcases q1 with _ | ⟨e, t⟩
  · exfalso
    have h2 : (0 : ℚ) ≤ sumAmounts q2 := sumAmounts_nonneg hpos2
    have h0 : sumAmounts ([] : List EntrySchema) = 0 := rfl
    rw [h0] at hlt
    exact absurd hlt (not_lt.mpr h2)
  · rcases h1 e (by simp) with ⟨hs, hr⟩
    simp only [compute_iou_status]
    rw [if_pos hlt, hs, hr]

/-- When the second list's sum dominates, the engine reports the second
list's direction with the difference of the sums. -/
theorem compute_iou_status_lt (a b : String) (q1 q2 : List EntrySchema)
    (h2 : ∀ e ∈ q2, e.sender = b ∧ e.recipient = a)
    (hpos1 : ∀ e ∈ q1, 0 < e.amount)
    (hlt : sumAmounts q1 < sumAmounts q2) :
    compute_iou_status q1 q2 =
      Except.ok ⟨b, a, sumAmounts q2 - sumAmounts q1⟩ := by
  rcases q2 with _ | ⟨f, t2⟩
  · exfalso
    have h1 : (0 : ℚ) ≤ sumAmounts q1 := sumAmounts_nonneg hpos1
    have h0 : sumAmounts ([] : List EntrySchema) = 0 := rfl
    rw [h0] at hlt
    exact absurd hlt (not_lt.mpr h1)
  · rcases h2 f (by simp) with ⟨hs, hr⟩
    rcases q1 with _ | ⟨e, t⟩ <;>
      · simp only [compute_iou_status]
        rw [if_neg (not_lt.mpr hlt.le), if_pos hlt, hs, hr]

/-- Equal sums with at least one non-empty list: amount `0`, direction of
the first list. -/
theorem compute_iou_status_eq (a b : String) (q1 q2 : List EntrySchema)
    (h1 : ∀ e ∈ q1, e.sender = a ∧ e.recipient = b)
    (hpos1 : ∀ e ∈ q1, 0 < e.amount)
    (hpos2 : ∀ e ∈ q2, 0 < e.amount)
    (hne : q1 ≠ [] ∨ q2 ≠ [])
    (heq : sumAmounts q1 = sumAmounts q2) :
    compute_iou_status q1 q2 = Except.ok ⟨a, b, 0⟩ := by
  rcases q1 with _ | ⟨e, t⟩
  · exfalso
    have h0 : sumAmounts ([] : List EntrySchema) = 0 := rfl
    rw [h0] at heq
    have hq2 : q2 = [] := eq_nil_of_sumAmounts_nonpos hpos2 (le_of_eq heq.symm)
    rcases hne with h | h
    · exact h rfl
    · exact h hq2
  · rcases h1 e (by simp) with ⟨hs, hr⟩
    simp only [compute_iou_status]
    rw [if_neg (not_lt.mpr (le_of_eq heq)), if_neg (not_lt.mpr (le_of_eq heq.symm)),
      hs, hr]

/-- Branch lemma (no label hypotheses): dominant first sum, names from the
first list's head. -/
theorem compute_gt_head (q1 q2 : List EntrySchema) (e : EntrySchema)
    (ts : List EntrySchema) (h1 : q1 = e :: ts)
    (hlt : sumAmounts q2 < sumAmounts q1) :
    compute_iou_status q1 q2 =
      Except.ok ⟨e.sender, e.recipient, sumAmounts q1 - sumAmounts q2⟩ := by
  subst h1
  simp only [compute_iou_status]
  rw [if_pos hlt]

/-- Branch lemma (no label hypotheses): dominant second sum, names from the
second list's head. -/
theorem compute_lt_head (q1 q2 : List EntrySchema) (f : EntrySchema)
    (ts : List EntrySchema) (h2 : q2 = f :: ts)
    (hlt : sumAmounts q1 < sumAmounts q2) :
    compute_iou_status q1 q2 =
      Except.ok ⟨f.sender, f.recipient, sumAmounts q2 - sumAmounts q1⟩ := by
  subst h2
  rcases q1 with _ | ⟨e, t⟩ <;>
    · simp only [compute_iou_status]
      rw [if_neg (not_lt.mpr hlt.le), if_pos hlt]

/-- Branch lemma (no label hypotheses): equal sums, names from the first
list's head, amount `0`. -/
theorem compute_eq_head (q1 q2 : List EntrySchema) (e : EntrySchema)
    (ts : List EntrySchema) (h1 : q1 = e :: ts)
    (heq : sumAmounts q1 = sumAmounts q2) :
    compute_iou_status q1 q2 = Except.ok ⟨e.sender, e.recipient, 0⟩ := by
  subst h1
  simp only [compute_iou_status]
  rw [if_neg (not_lt.mpr (le_of_eq heq)), if_neg (not_lt.mpr (le_of_eq heq.symm))]

/-- Legacy branch lemma: dominant first sum. -/
theorem legacy_gt_head (l1 l2 : List EntryTuple) (t : EntryTuple)
    (ts : List EntryTuple) (h1 : l1 = t :: ts) (hlt : sumTuples l2 < sumTuples l1) :
    compute_iou_status_legacy l1 l2 =
      Except.ok ⟨t.1, t.2.1, sumTuples l1 - sumTuples l2⟩ := by
  subst h1
  simp only [compute_iou_status_legacy]
  rw [if_pos hlt]

/-- Legacy branch lemma: dominant second sum. -/
theorem legacy_lt_head (l1 l2 : List EntryTuple) (t : EntryTuple)
    (ts : List EntryTuple) (h2 : l2 = t :: ts) (hlt : sumTuples l1 < sumTuples l2) :
    compute_iou_status_legacy l1 l2 =
      Except.ok ⟨t.1, t.2.1, sumTuples l2 - sumTuples l1⟩ := by
  subst h2
  simp only [compute_iou_status_legacy]
  rw [if_neg (not_lt.mpr hlt.le), if_pos hlt]

/-- Legacy branch lemma: equal sums, amount `0`, names from the first list's
head. -/
theorem legacy_eq_head (l1 l2 : List EntryTuple) (t : EntryTuple)
    (ts : List EntryTuple) (h1 : l1 = t :: ts) (heq : sumTuples l1 = sumTuples l2) :
    compute_iou_status_legacy l1 l2 = Except.ok ⟨t.1, t.2.1, 0⟩ := by
  subst h1
  simp only [compute_iou_status_legacy]
  rw [if_neg (not_lt.mpr (le_of_eq heq)), if_neg (not_lt.mpr (le_of_eq heq.symm))]

/-- Tuple sums of a projected entry list agree with the schema sums. -/
theorem sumTuples_map_entryToTuple (q : List EntrySchema) :
    sumTuples (q.map entryToTuple) = sumAmounts q := by
  simp only [sumTuples, sumAmounts, List.map_map]
  rfl

/-- C2: with all amounts positive and at least one list non-empty, a larger
first-direction sum reports the first list's sender (A) owing the recipient
(B), a larger second-direction sum reports the second list's sender (B)
owing its recipient (A), each with the difference of the sums. -/
theorem c2_balance_direction (a b : String) (q1 q2 : List EntrySchema)
    (h1 : ∀ e ∈ q1, e.sender = a ∧ e.recipient = b)
    (h2 : ∀ e ∈ q2, e.sender = b ∧ e.recipient = a)
    (hpos1 : ∀ e ∈ q1, 0 < e.amount)
    (hpos2 : ∀ e ∈ q2, 0 < e.amount)
    (_hne : q1 ≠ [] ∨ q2 ≠ []) :
    (sumAmounts q2 < sumAmounts q1 →
      compute_iou_status q1 q2 =
        Except.ok ⟨a, b, sumAmounts q1 - sumAmounts q2⟩) ∧
    (sumAmounts q1 < sumAmounts q2 →
      compute_iou_status q1 q2 =
        Except.ok ⟨b, a, sumAmounts q2 - sumAmounts q1⟩) :=
  ⟨fun hlt => compute_iou_status_gt a b q1 q2 h1 hpos2 hlt,
   fun hlt => compute_iou_status_lt a b q1 q2 h2 hpos1 hlt⟩

/-- C2 witness: one-sided data, `computeBalance([], [B→A: 30])` gives
owingUser = B, owedUser = A, amount = 30. -/
theorem c2_balance_direction_witness :
    compute_iou_status [] [⟨"1", "B", "A", 30, none, false⟩] =
      Except.ok ⟨"B", "A", 30⟩ := by
  have h := (c2_balance_direction "A" "B" []
      [⟨"1", "B", "A", 30, none, false⟩]
      (by intro e he; simp at he)
      (by intro e he; simp at he; simp [he])
      (by intro e he; simp at he)
      (by intro e he; simp at he; simp [he])
      (Or.inr (by simp))).2 (by norm_num [sumAmounts])
  norm_num [sumAmounts] at h
  exact h

/-- C4: equal directional sums, positive amounts, at least one list
non-empty: `compute_iou_status` returns amount exactly `0` with the
owing/owed pair in the first list's direction. -/
theorem c4_tie_break (a b : String) (q1 q2 : List EntrySchema)
    (h1 : ∀ e ∈ q1, e.sender = a ∧ e.recipient = b)
    (hpos1 : ∀ e ∈ q1, 0 < e.amount)
    (hpos2 : ∀ e ∈ q2, 0 < e.amount)
    (hne : q1 ≠ [] ∨ q2 ≠ [])
    (heq : sumAmounts q1 = sumAmounts q2) :
    compute_iou_status q1 q2 = Except.ok ⟨a, b, 0⟩ :=
  compute_iou_status_eq a b q1 q2 h1 hpos1 hpos2 hne heq

/-- C4 witness: `A→B: [15, 10]`, `B→A: [25]` gives owing A, owed B,
amount exactly 0. -/
theorem c4_tie_break_witness :
    compute_iou_status
        [⟨"1", "A", "B", 15, none, false⟩, ⟨"1", "A", "B", 10, none, false⟩]
        [⟨"1", "B", "A", 25, none, false⟩] =
      Except.ok ⟨"A", "B", 0⟩ :=
  c4_tie_break "A" "B"
    [⟨"1", "A", "B", 15, none, false⟩, ⟨"1", "A", "B", 10, none, false⟩]
    [⟨"1", "B", "A", 25, none, false⟩]
    (by intro e he; simp at he; rcases he with h | h <;> simp [h])
    (by intro e he; simp at he; rcases he with h | h <;> simp [h])
    (by intro e he; simp at he; simp [he])
    (Or.inl (by simp))
    (by norm_num [sumAmounts])

/-- C3 counterexample: with equal sums in both directions (A→B: 10,
B→A: 10), swapping the argument order flips the reported owing/owed pair,
so the two call orders do not report the same owing user. -/
theorem c3_swap_counterexample :
    compute_iou_status [⟨"1", "A", "B", 10, none, false⟩]
        [⟨"1", "B", "A", 10, none, false⟩] = Except.ok ⟨"A", "B", 0⟩ ∧
    compute_iou_status [⟨"1", "B", "A", 10, none, false⟩]
        [⟨"1", "A", "B", 10, none, false⟩] = Except.ok ⟨"B", "A", 0⟩ ∧
    ("A" : String) ≠ "B" := by
  refine ⟨?_, ?_, by decide⟩
  · exact compute_eq_head _ _ ⟨"1", "A", "B", 10, none, false⟩ [] rfl
      (by norm_num [sumAmounts])
  · exact compute_eq_head _ _ ⟨"1", "B", "A", 10, none, false⟩ [] rfl
      (by norm_num [sumAmounts])

/-- C3 amended: when the two directional sums differ, the two argument
orders yield identical results; when the sums are equal, both orders yield
amount 0 but the owing/owed pair follows the first argument's direction, so
the pair is swapped between the two call orders. -/
theorem c3_symmetry_amended (a b : String) (q1 q2 : List EntrySchema)
    (h1 : ∀ e ∈ q1, e.sender = a ∧ e.recipient = b)
    (h2 : ∀ e ∈ q2, e.sender = b ∧ e.recipient = a)
    (hpos1 : ∀ e ∈ q1, 0 < e.amount)
    (hpos2 : ∀ e ∈ q2, 0 < e.amount)
    (hne : q1 ≠ [] ∨ q2 ≠ []) :
    (sumAmounts q1 ≠ sumAmounts q2 →
      compute_iou_status q1 q2 = compute_iou_status q2 q1) ∧
    (sumAmounts q1 = sumAmounts q2 →
      compute_iou_status q1 q2 = Except.ok ⟨a, b, 0⟩ ∧
      compute_iou_status q2 q1 = Except.ok ⟨b, a, 0⟩) := by
  constructor
  · intro hneq
    rcases lt_or_gt_of_ne hneq with hlt | hgt
    · rw [compute_iou_status_lt a b q1 q2 h2 hpos1 hlt,
        compute_iou_status_gt b a q2 q1 h2 hpos1 hlt]
    · rw [compute_iou_status_gt a b q1 q2 h1 hpos2 hgt,
        compute_iou_status_lt b a q2 q1 h1 hpos2 hgt]
  · intro heq
    exact ⟨compute_iou_status_eq a b q1 q2 h1 hpos1 hpos2 hne heq,
      compute_iou_status_eq b a q2 q1 h2 hpos2 hpos1 (Or.symm hne) heq.symm⟩

/-- C3 amended witness: A→B: [20], B→A: [5]; both argument orders report
the same status. -/
theorem c3_symmetry_amended_witness :
    compute_iou_status [⟨"1", "A", "B", 20, none, false⟩]
        [⟨"1", "B", "A", 5, none, false⟩] =
      compute_iou_status [⟨"1", "B", "A", 5, none, false⟩]
        [⟨"1", "A", "B", 20, none, false⟩] :=
  (c3_symmetry_amended "A" "B"
    [⟨"1", "A", "B", 20, none, false⟩]
    [⟨"1", "B", "A", 5, none, false⟩]
    (by intro e he; simp at he; simp [he])
    (by intro e he; simp at he; simp [he])
    (by intro e he; simp at he; simp [he])
    (by intro e he; simp at he; simp [he])
    (Or.inl (by simp))).1 (by norm_num [sumAmounts])

/-- C10: on the same underlying entry data, with all amounts positive and
at least one list non-empty, the legacy tuple-based engine and the current
schema-based engine agree exactly. -/
theorem c10_legacy_refines_current (q1 q2 : List EntrySchema)
    (hpos1 : ∀ e ∈ q1, 0 < e.amount)
    (hpos2 : ∀ e ∈ q2, 0 < e.amount)
    (hne : q1 ≠ [] ∨ q2 ≠ []) :
    compute_iou_status_legacy (q1.map entryToTuple) (q2.map entryToTuple) =
      compute_iou_status q1 q2 := by
  have hs1 := sumTuples_map_entryToTuple q1
  have hs2 := sumTuples_map_entryToTuple q2
  rcases lt_trichotomy (sumAmounts q1) (sumAmounts q2) with hlt | heq | hgt
  · have hq2 : q2 ≠ [] := by
      intro h
      rw [h] at hlt
      exact absurd hlt (not_lt.mpr (sumAmounts_nonneg hpos1))
    rcases q2 with _ | ⟨f, t2⟩
    · exact absurd rfl hq2
    · rw [legacy_lt_head (q1.map entryToTuple) ((f :: t2).map entryToTuple)
          (entryToTuple f) (t2.map entryToTuple) (by simp)
          (by rw [hs1, hs2]; exact hlt),
        compute_lt_head q1 (f :: t2) f t2 rfl hlt, hs1, hs2]
      rfl
  · have hq1 : q1 ≠ [] := by
      intro h
      rw [h] at heq
      have hq2 : q2 = [] := eq_nil_of_sumAmounts_nonpos hpos2 (le_of_eq heq.symm)
      rcases hne with hh | hh
      · exact hh h
      · exact hh hq2
    rcases q1 with _ | ⟨e, t⟩
    · exact absurd rfl hq1
    · rw [legacy_eq_head ((e :: t).map entryToTuple) (q2.map entryToTuple)
          (entryToTuple e) (t.map entryToTuple) (by simp)
          (by rw [hs1, hs2]; exact heq),
        compute_eq_head (e :: t) q2 e t rfl heq]
      rfl
  · have hq1 : q1 ≠ [] := by
      intro h
      rw [h] at hgt
      exact absurd hgt (not_lt.mpr (sumAmounts_nonneg hpos2))
    rcases q1 with _ | ⟨e, t⟩
    · exact absurd rfl hq1
    · rw [legacy_gt_head ((e :: t).map entryToTuple) (q2.map entryToTuple)
          (entryToTuple e) (t.map entryToTuple) (by simp)
          (by rw [hs1, hs2]; exact hgt),
        compute_gt_head (e :: t) q2 e t rfl hgt, hs1, hs2]
      rfl

/-- C10 witness: A→B: [20], B→A: [5]; both engines report A owing B 15. -/
theorem c10_legacy_refines_current_witness :
    compute_iou_status_legacy
        ([⟨"1", "A", "B", 20, none, false⟩].map entryToTuple)
        ([⟨"1", "B", "A", 5, none, false⟩].map entryToTuple) =
      compute_iou_status [⟨"1", "A", "B", 20, none, false⟩]
        [⟨"1", "B", "A", 5, none, false⟩] :=
  c10_legacy_refines_current
    [⟨"1", "A", "B", 20, none, false⟩] [⟨"1", "B", "A", 5, none, false⟩]
    (by intro e he; simp at he; simp [he])
    (by intro e he; simp at he; simp [he])
    (Or.inl (by simp))

/-- Python's banker's rounding (`round(x)`): nearest integer, ties to the
even integer. -/
def roundHalfEven (x : ℚ) : ℤ :=
  let f := ⌊x⌋
  let frac := x - f
  if frac < 1/2 then f
  else if 1/2 < frac then f + 1
  else if f % 2 = 0 then f else f + 1

/-- Python's `round(x, 2)`: round to two decimal places, ties to even. -/
def round2 (x : ℚ) : ℚ :=
  (roundHalfEven (x * 100) : ℚ) / 100

/-- Python's `f"{x:.2f}"`: fixed two-decimal rendering of an amount. -/
def formatFixed2 (x : ℚ) : String :=
  let c := roundHalfEven (x * 100)
  let sign := if c < 0 then "-" else ""
  let n := c.natAbs
  let cents := n % 100
  sign ++ toString (n / 100) ++ "." ++
    (if cents < 10 then "0" else "") ++ toString cents

/-- Split request payload, from `SplitSchema` in `iou_app/iou/schema.py`
(the `@` stripping and amount parsing happen before this point; the payload
here is the validated model). -/
structure SplitSchema where
  conversation_id : String
  payer : String
  amount : ℚ
  participants : List String
  description : String
deriving DecidableEq, Repr

/-- Pydantic construction of an `EntrySchema`: the `positive_amount` field
validator rejects `amount <= 0` with `ValueError('Amount must be
positive')`; otherwise the entry is built. -/
def mkEntrySchema (cid sender recipient : String) (amount : ℚ)
    (description : Option String) (deleted : Bool) : Except String EntrySchema :=
  if amount ≤ 0 then Except.error "Amount must be positive"
  else Except.ok ⟨cid, sender, recipient, amount, description, deleted⟩

/-- The split entry description built in `split_amount`:
`f"Split: {description} | Total: ${amount:.2f} | Participants: {joined}"`. -/
def splitDescription (payload : SplitSchema) : String :=
  "Split: " ++ payload.description ++ " | Total: $" ++
    formatFixed2 payload.amount ++ " | Participants: " ++
    String.intercalate ", " payload.participants

/-- The entry-building loop of `split_amount`: one `EntrySchema` per
participant other than the payer; a pydantic `ValidationError` from
`EntrySchema(...)` escapes at the first failing construction. -/
def buildSplitEntries (cid payer : String) (share : ℚ) (desc : String) :
    List String → Except String (List EntrySchema)
  | [] => Except.ok []
  | participant :: rest =>
    if participant ≠ payer then
      match mkEntrySchema cid participant payer share (some desc) false with
      | Except.error e => Except.error e
      | Except.ok entry =>
        match buildSplitEntries cid payer share desc rest with
        | Except.error e => Except.error e
        | Except.ok entries => Except.ok (entry :: entries)
    else buildSplitEntries cid payer share desc rest

/-- Outcome of the `/split` endpoint: the 400 `JSONResponse` for fewer than
two participants, an escaping `ValidationError` (HTTP 500), or success with
the generated entries and the per-user share. -/
inductive SplitResult where
  | badRequest (message : String)
  | validationError (message : String)
  | ok (entries : List EntrySchema) (split_per_user : ℚ)
deriving DecidableEq, Repr

/-- The `/split` endpoint, from `split_amount` in `iou_app/iou/views.py`
(identical logic in `app/iou/views.py`): reject fewer than two
participants with a 400 response, compute
`even_share = round(amount / num_participants, 2)`, and build one entry per
non-payer participant, each with the payer as recipient. -/
def split_amount (payload : SplitSchema) : SplitResult :=
  let num_participants := payload.participants.length
  if num_participants < 2 then
    SplitResult.badRequest "At least two participants are required for a split."
  else
    let even_share := round2 (payload.amount / (num_participants : ℚ))
    match buildSplitEntries payload.conversation_id payload.payer even_share
        (splitDescription payload) payload.participants with
    | Except.error e => SplitResult.validationError e
    | Except.ok entries => SplitResult.ok entries even_share

/-- With a positive share, the entry-building loop succeeds and produces
exactly the non-payer participants, in order, each owing the payer the
share. -/
theorem buildSplitEntries_pos (cid payer : String) (share : ℚ) (desc : String)
    (hpos : 0 < share) (ps : List String) :
    buildSplitEntries cid payer share desc ps =
      Except.ok ((ps.filter (fun q => q != payer)).map
        (fun q => ⟨cid, q, payer, share, some desc, false⟩)) := by
  induction ps with
  | nil => rfl
  | cons participant rest ih =>
    by_cases h : participant = payer
    · simp [buildSplitEntries, h, ih]
    · simp [buildSplitEntries, h, mkEntrySchema, not_le.mpr hpos, ih]

/-- C5 counterexample: a valid split request (positive total 0.01, three
participants) whose per-share rounds to 0; the `EntrySchema` amount
validator then rejects, a `ValidationError` escapes, and no entries are
generated — contradicting the unconditional "exactly one entry per
non-payer participant". -/
theorem c5_zero_share_counterexample :
    split_amount ⟨"1", "p", 1/100, ["p", "x", "y"], "d"⟩ =
      SplitResult.validationError "Amount must be positive" := by
  have hx : ((1:ℚ)/100) / ((3:ℕ) : ℚ) * 100 = 1/3 := by norm_num
  have hf : ⌊(1/3 : ℚ)⌋ = 0 := by norm_num [Int.floor_eq_iff]
  have hround : roundHalfEven ((1:ℚ)/100 / ((3:ℕ) : ℚ) * 100) = 0 := by
    rw [hx]
    simp only [roundHalfEven, hf]
    norm_num
  have hshare : round2 ((1:ℚ)/100 / ((3:ℕ) : ℚ)) = 0 := by
    rw [round2, hround]
    norm_num
  simp only [split_amount, List.length_cons, List.length_nil]
  rw [if_neg (by norm_num)]
  rw [hshare]
  simp [buildSplitEntries, mkEntrySchema]

/-- C5 amended: fewer than two participants yields the 400 "insufficient
participants" response (no exception); otherwise, provided the rounded
per-share `round(amount / len(participants), 2)` is positive (so the entry
validator accepts it), exactly one entry is generated per participant other
than the payer — sender the participant, recipient the payer, amount the
per-share — and none for the payer. -/
theorem c5_split_amended (payload : SplitSchema) :
    (payload.participants.length < 2 →
      split_amount payload =
        SplitResult.badRequest
          "At least two participants are required for a split.") ∧
    (2 ≤ payload.participants.length →
      0 < round2 (payload.amount / (payload.participants.length : ℚ)) →
      split_amount payload =
        SplitResult.ok
          ((payload.participants.filter (fun q => q != payload.payer)).map
            (fun q => ⟨payload.conversation_id, q, payload.payer,
              round2 (payload.amount / (payload.participants.length : ℚ)),
              some (splitDescription payload), false⟩))
          (round2 (payload.amount / (payload.participants.length : ℚ)))) := by
  constructor
  · intro hlt
    simp only [split_amount]
    rw [if_pos hlt]
  · intro hge hpos
    simp only [split_amount]
    rw [if_neg (not_lt.mpr hge),
      buildSplitEntries_pos payload.conversation_id payload.payer _
        (splitDescription payload) hpos payload.participants]

/-- C5 witness: `allocateSplit(payer=P, total=30, participants=[P,X,Y,Z])`
generates entries X→P, Y→P, Z→P, each with the rounded per-share. -/
theorem c5_split_amended_witness :
    split_amount ⟨"1", "P", 30, ["P", "X", "Y", "Z"], "dinner"⟩ =
      SplitResult.ok
        (((["P", "X", "Y", "Z"] : List String).filter (fun q => q != "P")).map
          (fun q => ⟨"1", q, "P",
            round2 ((30 : ℚ) / (((["P", "X", "Y", "Z"] : List String).length : ℕ) : ℚ)),
            some (splitDescription ⟨"1", "P", 30, ["P", "X", "Y", "Z"], "dinner"⟩),
            false⟩))
        (round2 ((30 : ℚ) / (((["P", "X", "Y", "Z"] : List String).length : ℕ) : ℚ))) := by
  have h := (c5_split_amended ⟨"1", "P", 30, ["P", "X", "Y", "Z"], "dinner"⟩).2
    (by simp)
    (by
      have hx : (30:ℚ) / (((["P", "X", "Y", "Z"] : List String).length : ℕ) : ℚ) * 100 = 750 := by
        norm_num
      have hf : ⌊(750 : ℚ)⌋ = 750 := by norm_num
      rw [round2, hx]
      simp only [roundHalfEven, hf]
      norm_num)
  exact h

/-- One stored DynamoDB row of the entries table, as consumed by the
settlement flow in `app/iou/views.py` / `iou_app/iou/ddb.py`: unique `id`
(a uuid4), `sender`, `recipient`, `amount`, and the soft-delete flag
(stored as the strings `'True'`/`'False'`, modelled as `Bool`).  The
`datetime` sort key, `conversation_id`, `description` and `deleted_at`
attributes play no role in the verified logic and are omitted. -/
structure DdbItem where
  id : String
  sender : String
  recipient : String
  amount : ℚ
  deleted : Bool
deriving DecidableEq, Repr

/-- `get_entries` of `iou_app/iou/ddb.py`: the table scan with filter
`deleted = 'False'` — all non-deleted items.  (The surrounding TTL cache is
invalidated on every write, so the sequential behaviour is that of the
uncached scan.) -/
def ddb_get_entries (store : List DdbItem) : List DdbItem :=
  store.filter (fun i => !i.deleted)

/-- The pair filter used by `get_entries(user1, user2)` and
`settle_transactions`: a transaction between the two users in either
direction. -/
def matchesPair (user1 user2 : String) (i : DdbItem) : Bool :=
  (i.sender == user1 && i.recipient == user2) ||
    (i.sender == user2 && i.recipient == user1)

/-- `IOUStatus` of `iou_app/iou/schema.py`: optional owing/owed users and a
2-decimal rounded amount (the `round_amount` field validator). -/
structure IOUStatus where
  owing_user : Option String
  owed_user : Option String
  amount : ℚ
deriving DecidableEq, Repr

/-- `read_iou_status` of `app/iou/views.py`: sum the active entries in each
direction between the two users; zero difference reports user1 owing user2
amount 0, positive difference user1 owing user2, negative difference user2
owing user1 with the absolute value. -/
def read_iou_status (user1 user2 : String) (store : List DdbItem) : IOUStatus :=
  let entries := (ddb_get_entries store).filter (matchesPair user1 user2)
  let total_user1_owes :=
    ((entries.filter (fun e => e.sender == user1 && e.recipient == user2)).map
      (fun e => e.amount)).sum
  let total_user2_owes :=
    ((entries.filter (fun e => e.sender == user2 && e.recipient == user1)).map
      (fun e => e.amount)).sum
  let difference := total_user1_owes - total_user2_owes
  if difference = 0 then ⟨some user1, some user2, round2 0⟩
  else if 0 < difference then ⟨some user1, some user2, round2 difference⟩
  else ⟨some user2, some user1, round2 |difference|⟩

/-- The `update_item` step of `soft_delete_item`: the scan's first
non-deleted item with the given id (its `items[0]`) gets `deleted = True`. -/
def markDeletedFirst (item_id : String) : List DdbItem → List DdbItem
  | [] => []
  | i :: rest =>
    if i.id == item_id && !i.deleted then { i with deleted := true } :: rest
    else i :: markDeletedFirst item_id rest

/-- `soft_delete_item` of `iou_app/iou/ddb.py`: fails when no non-deleted
item carries the id ("not found or already deleted"); otherwise flips that
item's `deleted` flag. -/
def soft_delete_item (item_id : String) (store : List DdbItem) :
    Except String (List DdbItem) :=
  if (store.filter (fun i => i.id == item_id && !i.deleted)).isEmpty then
    Except.error "Item not found or already deleted"
  else Except.ok (markDeletedFirst item_id store)

/-- The deletion loop of `settle_transactions`: soft-delete each filtered
item by id, counting successes; a failure is logged and skipped
(`continue`). -/
def settleLoop : List DdbItem → List DdbItem → ℕ → ℕ × List DdbItem
  | [], store, n => (n, store)
  | i :: rest, store, n =>
    match soft_delete_item i.id store with
    | Except.ok store2 => settleLoop rest store2 (n + 1)
    | Except.error _ => settleLoop rest store n

/-- Response of the `/settle` endpoint. -/
structure SettleResult where
  message : String
  final_status : IOUStatus
  transactions_settled : ℕ
deriving DecidableEq, Repr

/-- `settle_transactions` of `app/iou/views.py`: list active entries, return
a zero summary when nothing (or nothing between the pair) is found, else
compute the pre-settlement balance and soft-delete every matched entry,
counting the deletions that succeed.  The pair `(result, store)` carries the
HTTP response and the post-settlement table state. -/
def settle_transactions (user1 user2 : String) (store : List DdbItem) :
    SettleResult × List DdbItem :=
  let items := ddb_get_entries store
  if items.isEmpty then
    (⟨"No transactions found", ⟨none, none, 0⟩, 0⟩, store)
  else
    let filtered_items := items.filter (matchesPair user1 user2)
    if filtered_items.isEmpty then
      (⟨"No transactions found between " ++ user1 ++ " and " ++ user2,
        ⟨none, none, 0⟩, 0⟩, store)
    else
      let iou_status := read_iou_status user1 user2 store
      let result := settleLoop filtered_items store 0
      (⟨"Successfully settled all transactions between " ++ user1 ++ " and " ++ user2,
        iou_status, result.1⟩, result.2)

/-- A list with a member is not `isEmpty`. -/
theorem isEmpty_false_of_ne_nil {α : Type} {l : List α} (h : l ≠ []) :
    l.isEmpty = false := by
  cases l with
  | nil => exact absurd rfl h
  | cons a t => rfl

/-- C6: settling a pair with no active entries between them succeeds with
zero transactions settled, a reported amount of 0, and an unchanged store —
no error, unlike the balance engine's no-data failure. -/
theorem c6_settle_nothing (user1 user2 : String) (store : List DdbItem)
    (h : (ddb_get_entries store).filter (matchesPair user1 user2) = []) :
    (settle_transactions user1 user2 store).1.transactions_settled = 0 ∧
    (settle_transactions user1 user2 store).1.final_status.amount = 0 ∧
    (settle_transactions user1 user2 store).2 = store := by
  by_cases hi : (ddb_get_entries store).isEmpty
  · simp [settle_transactions, hi]
  · simp [settle_transactions, hi, h]

/-- C6 witness: a store holding only an X→Y entry, settled for the pair
(A, B). -/
theorem c6_settle_nothing_witness :
    (settle_transactions "A" "B" [⟨"i1", "X", "Y", 5, false⟩]).1.transactions_settled
        = 0 ∧
    (settle_transactions "A" "B" [⟨"i1", "X", "Y", 5, false⟩]).1.final_status.amount
        = 0 ∧
    (settle_transactions "A" "B" [⟨"i1", "X", "Y", 5, false⟩]).2 =
      [⟨"i1", "X", "Y", 5, false⟩] :=
  c6_settle_nothing "A" "B" [⟨"i1", "X", "Y", 5, false⟩]
    (by simp [ddb_get_entries, matchesPair])

/-- Marking the first active item with a given id deletes exactly the first
matching element of the active listing. -/
theorem ddb_get_entries_markDeletedFirst (item_id : String) (store : List DdbItem) :
    ddb_get_entries (markDeletedFirst item_id store) =
      (ddb_get_entries store).eraseP (fun j => j.id == item_id) := by
  simp only [ddb_get_entries]
  induction store with
  | nil => rfl
  | cons i rest ih =>
    by_cases hdel : i.deleted
    · have hc : (i.id == item_id && !i.deleted) = false := by simp [hdel]
      simp [markDeletedFirst, hc, List.filter_cons, hdel, ih]
    · by_cases hid : i.id == item_id
      · have hc : (i.id == item_id && !i.deleted) = true := by simp [hid, hdel]
        simp [markDeletedFirst, hc, List.filter_cons, hdel,
          List.eraseP_cons, hid]
      · have hc : (i.id == item_id && !i.deleted) = false := by simp [hid]
        simp [markDeletedFirst, hc, List.filter_cons, hdel,
          List.eraseP_cons, hid, ih]

/-- In a list whose ids are distinct, erasing the id of the head of a
filtered sublist removes exactly that head from the filtered view. -/
theorem filter_eraseP_eq (mp : DdbItem → Bool) :
    ∀ (l : List DdbItem) (i : DdbItem) (rest : List DdbItem),
    (l.map (fun j => j.id)).Nodup →
    l.filter mp = i :: rest →
    (l.eraseP (fun j => j.id == i.id)).filter mp = rest := by
  intro l
  induction l with
  | nil => intro i rest _ hf; exact absurd hf (by simp)
  | cons a l' ih =>
    intro i rest hnd hf
    have hnd' : (l'.map (fun j => j.id)).Nodup := (List.nodup_cons.mp hnd).2
    by_cases hm : mp a
    · rw [List.filter_cons_of_pos hm] at hf
      have ha : a = i := (List.cons.injEq _ _ _ _).mp hf |>.1
      have hrest : l'.filter mp = rest := (List.cons.injEq _ _ _ _).mp hf |>.2
      have hpa : (a.id == i.id) = true := by simp [ha]
      simp only [List.eraseP_cons, hpa, cond_true]
      exact hrest
    · rw [List.filter_cons_of_neg hm] at hf
      have hi_mem : i ∈ l' := by
        have : i ∈ l'.filter mp := by rw [hf]; exact List.mem_cons_self i rest
        exact List.mem_of_mem_filter this
      have haid : a.id ≠ i.id := by
        intro hcontra
        have : a.id ∈ l'.map (fun j => j.id) :=
          hcontra ▸ List.mem_map.mpr ⟨i, hi_mem, rfl⟩
        exact (List.nodup_cons.mp hnd).1 this
      have hpa : (a.id == i.id) = false := by
        simp [haid]
      simp only [List.eraseP_cons, hpa, cond_false]
      rw [List.filter_cons_of_neg hm]
      exact ih i rest hnd' hf

/-- The deletion loop of `settle_transactions`, specified: when the active
ids are distinct and `todo` is exactly the active pair listing, every
deletion succeeds (final count `n + todo.length`) and afterwards the active
pair listing is empty. -/
theorem settleLoop_spec (user1 user2 : String) :
    ∀ (todo store : List DdbItem) (n : ℕ),
    ((ddb_get_entries store).map (fun j => j.id)).Nodup →
    (ddb_get_entries store).filter (matchesPair user1 user2) = todo →
    (settleLoop todo store n).1 = n + todo.length ∧
    (ddb_get_entries (settleLoop todo store n).2).filter
      (matchesPair user1 user2) = [] := by
  intro todo
  induction todo with
  | nil =>
    intro store n _ hf
    exact ⟨by simp [settleLoop], by simpa [settleLoop] using hf⟩
  | cons i rest ih =>
    intro store n hnd hf
    have hi_act : i ∈ ddb_get_entries store := by
      have : i ∈ (ddb_get_entries store).filter (matchesPair user1 user2) := by
        rw [hf]; exact List.mem_cons_self i rest
      exact List.mem_of_mem_filter this
    have hi_act' : i ∈ store.filter (fun j => !j.deleted) := hi_act
    have hi_store : i ∈ store := List.mem_of_mem_filter hi_act'
    have hi_del : (!i.deleted) = true := (List.mem_filter.mp hi_act').2
    have hfilter_ne :
        store.filter (fun j => j.id == i.id && !j.deleted) ≠ [] := by
      have : i ∈ store.filter (fun j => j.id == i.id && !j.deleted) :=
        List.mem_filter.mpr ⟨hi_store, by simp [hi_del]⟩
      exact List.ne_nil_of_mem this
    have hsucc : soft_delete_item i.id store =
        Except.ok (markDeletedFirst i.id store) := by
      simp only [soft_delete_item]
      rw [if_neg (by simp [isEmpty_false_of_ne_nil hfilter_ne])]
    have hstep : settleLoop (i :: rest) store n =
        settleLoop rest (markDeletedFirst i.id store) (n + 1) := by
      simp only [settleLoop, hsucc]
    have hact2 : ddb_get_entries (markDeletedFirst i.id store) =
        (ddb_get_entries store).eraseP (fun j => j.id == i.id) :=
      ddb_get_entries_markDeletedFirst i.id store
    have hnd2 : ((ddb_get_entries (markDeletedFirst i.id store)).map
        (fun j => j.id)).Nodup := by
      rw [hact2]
      exact hnd.sublist (List.Sublist.map _ (List.eraseP_sublist _))
    have hf2 : (ddb_get_entries (markDeletedFirst i.id store)).filter
        (matchesPair user1 user2) = rest := by
      rw [hact2]
      exact filter_eraseP_eq (matchesPair user1 user2)
        (ddb_get_entries store) i rest hnd hf
    have hrec := ih (markDeletedFirst i.id store) (n + 1) hnd2 hf2
    rw [hstep]
    refine ⟨?_, hrec.2⟩
    rw [hrec.1]
    simp only [List.length_cons]
    omega

/-- C7: settling a pair with a non-empty active listing (ids distinct, as
DynamoDB uuid4 keys are): each matched entry is soft-deleted (failures
would be skipped, but here every deletion succeeds), the settled count
equals the number of matched entries, the reported balance is the one
computed before any deletion, and the subsequent active listing for the
pair is empty. -/
theorem c7_settlement_completeness (user1 user2 : String) (store : List DdbItem)
    (hnodup : ((ddb_get_entries store).map (fun j => j.id)).Nodup)
    (hne : (ddb_get_entries store).filter (matchesPair user1 user2) ≠ []) :
    (settle_transactions user1 user2 store).1.transactions_settled =
      ((ddb_get_entries store).filter (matchesPair user1 user2)).length ∧
    (settle_transactions user1 user2 store).1.final_status =
      read_iou_status user1 user2 store ∧
    (ddb_get_entries (settle_transactions user1 user2 store).2).filter
      (matchesPair user1 user2) = [] := by
  have hitems_ne : ddb_get_entries store ≠ [] := by
    intro h
    apply hne
    rw [h]
    rfl
  have h1 : (ddb_get_entries store).isEmpty = false :=
    isEmpty_false_of_ne_nil hitems_ne
  have h2 : ((ddb_get_entries store).filter (matchesPair user1 user2)).isEmpty
      = false := isEmpty_false_of_ne_nil hne
  have hloop := settleLoop_spec user1 user2
    ((ddb_get_entries store).filter (matchesPair user1 user2)) store 0 hnodup rfl
  refine ⟨?_, ?_, ?_⟩ <;>
    simp only [settle_transactions, h1, h2, Bool.false_eq_true, if_false]
  · rw [hloop.1]
    exact Nat.zero_add _
  · exact hloop.2

/-- C7 witness: two active entries between A and B; settling reports 2
settled and leaves no active entries for the pair. -/
theorem c7_settlement_completeness_witness :
    (settle_transactions "A" "B"
        [⟨"i1", "A", "B", 20, false⟩, ⟨"i2", "B", "A", 5, false⟩]
      ).1.transactions_settled = 2 ∧
    (ddb_get_entries (settle_transactions "A" "B"
        [⟨"i1", "A", "B", 20, false⟩, ⟨"i2", "B", "A", 5, false⟩]).2).filter
      (matchesPair "A" "B") = [] := by
  have h := c7_settlement_completeness "A" "B"
      [⟨"i1", "A", "B", 20, false⟩, ⟨"i2", "B", "A", 5, false⟩]
      (by decide) (by decide)
  refine ⟨?_, h.2.2⟩
  rw [h.1]
  rfl

/-- The three rejection reasons of the amount validators in
`iou_app/iou/schema.py`: `AmountException('... contains invalid
characters')`, `AmountException('Unable to parse amount ...')`, and
`AmountException('Amount must be positive ...')`. -/
inductive AmountError where
  | invalidChars
  | unparseable
  | nonPositive
deriving DecidableEq, Repr

/-- Value of a list of decimal digit characters. -/
def digitsVal (cs : List Char) : ℕ :=
  cs.foldl (fun acc c => acc * 10 + (c.toNat - 48)) 0

/-- All characters are ASCII decimal digits. -/
def allDigits (cs : List Char) : Bool :=
  cs.all Char.isDigit

/-- Python's `float(s)` on a string made only of digits, `.` and `-` (the
shape `validate_amount_str` feeds it): an optional leading `-`, at most one
`.`, at least one digit, nothing else; otherwise `ValueError` (`none`).
Exponents, `inf`/`nan` and underscores cannot reach this point because any
alphabetic character is rejected earlier and `_` is stripped. -/
def pyParseFloat (cs : List Char) : Option ℚ :=
  let neg : Bool := cs.head? == some '-'
  let body := if neg then cs.drop 1 else cs
  let intPart := body.takeWhile (fun c => c != '.')
  let frac := (body.dropWhile (fun c => c != '.')).drop 1
  if allDigits intPart && allDigits frac && !(intPart.isEmpty && frac.isEmpty) then
    let mag : ℚ :=
      (digitsVal intPart : ℚ) + (digitsVal frac : ℚ) / ((10 : ℚ) ^ frac.length)
    some (if neg then -mag else mag)
  else none

/-- `validate_amount_str` of `iou_app/iou/schema.py`: reject any alphabetic
character outright, strip every character that is not a digit, `.` or `-`,
parse the remainder as a float, and require the value to be positive.
(Python's `str.isalpha`/`str.isdigit` are modelled on ASCII inputs.) -/
def validate_amount_str (amount : String) : Except AmountError ℚ :=
  if amount.toList.any Char.isAlpha then
    Except.error AmountError.invalidChars
  else
    let cleaned := amount.toList.filter (fun c => c.isDigit || c == '.' || c == '-')
    match pyParseFloat cleaned with
    | none => Except.error AmountError.unparseable
    | some value =>
      if value ≤ 0 then Except.error AmountError.nonPositive
      else Except.ok value

/-- An amount supplied at the boundary: free text or a pre-parsed number. -/
inductive AmountInput where
  | fromStr (s : String)
  | fromNum (v : ℚ)
deriving DecidableEq, Repr

/-- `IOUMessage.parse_amount` of `iou_app/iou/schema.py`: strings go
through `validate_amount_str`; numbers must simply be positive. -/
def parse_amount : AmountInput → Except AmountError ℚ
  | AmountInput.fromStr s => validate_amount_str s
  | AmountInput.fromNum v =>
    if v ≤ 0 then Except.error AmountError.nonPositive else Except.ok v

/-- Evaluation of the validator on `"1,234.56"`: the comma is stripped and
the cleaned string parses to 1234.56. -/
theorem validate_comma_eval :
    validate_amount_str "1,234.56" = Except.ok (123456 / 100) := by
  have halpha : "1,234.56".toList.any Char.isAlpha = false := by decide
  have hclean : "1,234.56".toList.filter
      (fun c => c.isDigit || c == '.' || c == '-') =
      ['1', '2', '3', '4', '.', '5', '6'] := by decide
  have hparse : pyParseFloat ['1', '2', '3', '4', '.', '5', '6'] =
      some (123456 / 100) := by
    have hneg : ((['1', '2', '3', '4', '.', '5', '6'] : List Char).head? ==
        some '-') = false := by decide
    have htake : (['1', '2', '3', '4', '.', '5', '6'] : List Char).takeWhile
        (fun c => c != '.') = ['1', '2', '3', '4'] := by decide
    have hdrop : ((['1', '2', '3', '4', '.', '5', '6'] : List Char).dropWhile
        (fun c => c != '.')).drop 1 = ['5', '6'] := by decide
    have hd1 : allDigits ['1', '2', '3', '4'] = true := by decide
    have hd2 : allDigits ['5', '6'] = true := by decide
    have hv1 : digitsVal ['1', '2', '3', '4'] = 1234 := by decide
    have hv2 : digitsVal ['5', '6'] = 56 := by decide
    simp only [pyParseFloat, hneg, Bool.false_eq_true, if_false, htake,
      hdrop, hd1, hd2, hv1, hv2]
    norm_num
  simp only [validate_amount_str, halpha, Bool.false_eq_true, if_false,
    hclean, hparse]
  rw [if_neg (by norm_num)]

/-- Any alphabetic character makes `validate_amount_str` fail with the
format ("invalid characters") error. -/
theorem validate_amount_str_alpha (s : String)
    (h : s.toList.any Char.isAlpha = true) :
    validate_amount_str s = Except.error AmountError.invalidChars := by
  simp only [validate_amount_str]
  rw [if_pos h]

/-- Every value `validate_amount_str` accepts is positive. -/
theorem validate_amount_str_pos (s : String) (v : ℚ)
    (h : validate_amount_str s = Except.ok v) : 0 < v := by
  by_cases ha : s.toList.any Char.isAlpha = true
  · rw [validate_amount_str_alpha s ha] at h
    contradiction
  · simp only [validate_amount_str] at h
    rw [if_neg ha] at h
    cases hp : pyParseFloat (s.toList.filter
        (fun c => c.isDigit || c == '.' || c == '-')) with
    | none => rw [hp] at h; contradiction
    | some value =>
      rw [hp] at h
      simp only at h
      by_cases hv : value ≤ 0
      · rw [if_pos hv] at h
        contradiction
      · rw [if_neg hv] at h
        cases h
        exact not_le.mp hv

/-- C8 counterexample: `,` is not a digit, `.` or `-`, yet `"1,234.56"` is
accepted (the comma is silently stripped, not rejected as the claim's
universal clause requires) and parses to 1234.56. -/
theorem c8_comma_counterexample :
    (',' ∈ "1,234.56".toList ∧
      Char.isDigit ',' = false ∧ ',' ≠ '.' ∧ ',' ≠ '-') ∧
    validate_amount_str "1,234.56" = Except.ok (123456 / 100) :=
  ⟨⟨by decide, by decide, by decide, by decide⟩, validate_comma_eval⟩

/-- C8 amended: only alphabetic characters trigger the format error (other
non-numeric characters such as `,` are silently stripped); a pre-parsed
`-5` or `0` is rejected as non-positive (a distinct error); `"12abc34"` is
format-invalid; `"1,234.56"` is accepted as 1234.56; and every accepted
value is positive. -/
theorem c8_amount_validation_amended :
    (∀ s : String, s.toList.any Char.isAlpha = true →
      validate_amount_str s = Except.error AmountError.invalidChars) ∧
    validate_amount_str "12abc34" = Except.error AmountError.invalidChars ∧
    parse_amount (AmountInput.fromNum (-5)) =
      Except.error AmountError.nonPositive ∧
    parse_amount (AmountInput.fromNum 0) =
      Except.error AmountError.nonPositive ∧
    validate_amount_str "1,234.56" = Except.ok (123456 / 100) ∧
    AmountError.invalidChars ≠ AmountError.nonPositive ∧
    (∀ (s : String) (v : ℚ), validate_amount_str s = Except.ok v → 0 < v) := by
  refine ⟨validate_amount_str_alpha, ?_, ?_, ?_, validate_comma_eval,
    by decide, validate_amount_str_pos⟩
  · exact validate_amount_str_alpha "12abc34" (by decide)
  · simp only [parse_amount]
    rw [if_pos (by norm_num)]
  · simp only [parse_amount]
    rw [if_pos (by norm_num)]

/-- C8 amended witness: the format-error clause applied at `"x9"` and the
positivity clause applied at `"1,234.56"`. -/
theorem c8_amount_validation_amended_witness :
    validate_amount_str "x9" = Except.error AmountError.invalidChars ∧
    (0 : ℚ) < 123456 / 100 :=
  ⟨c8_amount_validation_amended.1 "x9" (by decide),
   c8_amount_validation_amended.2.2.2.2.2.2 "1,234.56" (123456 / 100)
     c8_amount_validation_amended.2.2.2.2.1⟩

/-- A value arriving at the `conversation_id` boundary: a string, an
integer, or a float.  A float is carried as the digits of its shortest
decimal representation — the text Python's `str` prints — with `intPart`
before the decimal point and `fracDigits` after it, so the float `1.0` is
`vfloat 1 ['0']`. -/
inductive PyVal where
  | vstr (s : String)
  | vint (n : ℤ)
  | vfloat (intPart : ℤ) (fracDigits : List Char)
deriving DecidableEq, Repr

/-- Python's `str(x)` on the modelled values: integers in decimal, floats
as `intPart.fracDigits` (`str(1.0) = "1.0"`). -/
def pythonStr : PyVal → String
  | PyVal.vstr s => s
  | PyVal.vint n => toString n
  | PyVal.vfloat i f => toString i ++ "." ++ String.mk f

/-- `EntrySchema.cast_conversation_id` of `iou_app/iou/schema.py`
(`model_validator(mode='before')`): an `isinstance(cid, (int, float))`
value is replaced by `str(cid)`; a string passes through unchanged. -/
def cast_conversation_id : PyVal → String
  | PyVal.vstr s => s
  | PyVal.vint n => pythonStr (PyVal.vint n)
  | PyVal.vfloat i f => pythonStr (PyVal.vfloat i f)

/-- C9 counterexample: the int `1` and the string `"1"` normalize to `"1"`,
but the float `1.0` is cast with `str` to `"1.0"`, which does not compare
equal — the three inputs do not all coincide after normalization. -/
theorem c9_float_cast_counterexample :
    cast_conversation_id (PyVal.vint 1) = "1" ∧
    cast_conversation_id (PyVal.vstr "1") = "1" ∧
    cast_conversation_id (PyVal.vfloat 1 ['0']) = "1.0" ∧
    ("1.0" : String) ≠ "1" :=
  ⟨by decide, rfl, by decide, by decide⟩

/-- C9 amended: integer and string forms of the same decimal numeral
normalize to the same canonical string, but a float input is cast with
`str`, so `1.0` normalizes to `"1.0"`, distinct from `"1"`. -/
theorem c9_conversation_id_amended :
    (∀ n : ℤ, cast_conversation_id (PyVal.vint n) =
      cast_conversation_id (PyVal.vstr (toString n))) ∧
    cast_conversation_id (PyVal.vfloat 1 ['0']) = "1.0" ∧
    ("1.0" : String) ≠ "1" :=
  ⟨fun _ => rfl, by decide, by decide⟩

/-- C9 amended witness: the int/string agreement clause applied at 7. -/
theorem c9_conversation_id_amended_witness :
    cast_conversation_id (PyVal.vint 7) =
      cast_conversation_id (PyVal.vstr (toString (7 : ℤ))) :=
  c9_conversation_id_amended.1 7
